import Mathlib

/-!
Verification of the WXYC archive player core (timestamp codec, access-window
policy, hour/day navigator, end-of-track auto-advance, deep-link session
controller, auth gating) against a shallow embedding of the TypeScript source.

Time is modelled on a fixed-offset local timeline (no DST), as the repository
treats days as naive calendar days in the viewer's local zone: one day is
86400000 ms and `Date` values are integers of milliseconds.  JS `Date` month
and day-of-month normalization is modelled at calendar granularity, and JS
`parseInt` is modelled including whitespace skipping, sign, hex prefixes and
longest-digit-prefix parsing.
-/

namespace Archive

/-- Milliseconds per day on the fixed-offset timeline. -/
def msPerDay : Int := 86400000

/-- Milliseconds per hour. -/
def msPerHour : Int := 3600000

/-! ### Characters and digits (JS string/number runtime semantics) -/

/-- Decimal digit test, `'0'..'9'`, as in ECMAScript DecimalDigit. -/
def isDigit (c : Char) : Bool := 48 ≤ c.toNat && c.toNat ≤ 57

/-- Hex digit test (`0-9a-fA-F`), for `parseInt` 0x-prefixed input. -/
def isHexDigit (c : Char) : Bool :=
  isDigit c || (97 ≤ c.toNat && c.toNat ≤ 102) || (65 ≤ c.toNat && c.toNat ≤ 70)

/-- Numeric value of a decimal digit character. -/
def dval (c : Char) : Nat := c.toNat - 48

/-- Numeric value of a hex digit character. -/
def hval (c : Char) : Nat :=
  if isDigit c then dval c
  else if 97 ≤ c.toNat then c.toNat - 87
  else c.toNat - 55

/-- Code points treated as whitespace by JS `parseInt` (StrWhiteSpaceChar). -/
def jsWsCodes : List Nat :=
  [9, 10, 11, 12, 13, 32, 160, 5760, 8192, 8193, 8194, 8195, 8196, 8197,
   8198, 8199, 8200, 8201, 8202, 8232, 8233, 8239, 8287, 12288, 65279]

/-- JS whitespace test used when `parseInt` skips leading whitespace. -/
def isJsWs (c : Char) : Bool := jsWsCodes.contains c.toNat

/-- Value of a decimal digit string (most significant first). -/
def natOfDec (l : List Char) : Nat := l.foldl (fun a c => a * 10 + dval c) 0

/-- Value of a hex digit string (most significant first). -/
def natOfHex (l : List Char) : Nat := l.foldl (fun a c => a * 16 + hval c) 0

/-- The sign factor of `parseInt`: −1 when the first non-whitespace
character is a minus sign. -/
def jsSign (l1 : List Char) : Int := if l1.head? = some '-' then -1 else 1

/-- The input of `parseInt` after stripping an optional leading sign. -/
def jsAfterSign (l1 : List Char) : List Char :=
  if l1.head? = some '-' || l1.head? = some '+' then l1.tail else l1

/-- Whether the (sign-stripped) input selects hex via a `0x`/`0X` prefix. -/
def jsIsHexPrefixed (l2 : List Char) : Bool :=
  l2.head? = some '0' && (l2.tail.head? = some 'x' || l2.tail.head? = some 'X')

/-- Model of ECMAScript `parseInt(s)` (radix unspecified): skip whitespace,
optional sign, optional `0x`/`0X` prefix selecting hex, then the longest
digit prefix; `none` models `NaN` (no digits at all). -/
def jsParseInt (l : List Char) : Option Int :=
  if jsIsHexPrefixed (jsAfterSign (l.dropWhile isJsWs)) then
    if ((jsAfterSign (l.dropWhile isJsWs)).drop 2).takeWhile isHexDigit = [] then none
    else
      some (jsSign (l.dropWhile isJsWs) *
        (natOfHex (((jsAfterSign (l.dropWhile isJsWs)).drop 2).takeWhile isHexDigit) : Int))
  else
    if (jsAfterSign (l.dropWhile isJsWs)).takeWhile isDigit = [] then none
    else
      some (jsSign (l.dropWhile isJsWs) *
        (natOfDec ((jsAfterSign (l.dropWhile isJsWs)).takeWhile isDigit) : Int))

/-- The decimal digit character for `n < 10` (JS `Number.prototype.toString`). -/
def dchar : Nat → Char
  | 0 => '0' | 1 => '1' | 2 => '2' | 3 => '3' | 4 => '4'
  | 5 => '5' | 6 => '6' | 7 => '7' | 8 => '8' | _ => '9'

/-- Digit-at-a-time rendering with structural fuel (the fuel is always
sufficient at the call site below). -/
def natToStrAux : Nat → Nat → List Char
  | 0, _ => []
  | fuel + 1, n =>
    if n < 10 then [dchar n] else natToStrAux fuel (n / 10) ++ [dchar (n % 10)]

/-- Decimal rendering of a natural number (JS number-to-string, no padding). -/
def natToStr (n : Nat) : List Char := natToStrAux (n + 1) n

/-- Decimal rendering of an integer, with a leading minus sign if negative. -/
def intToStr (i : Int) : List Char :=
  if i < 0 then '-' :: natToStr i.natAbs else natToStr i.toNat

/-- JS `String.prototype.padStart(2, "0")` applied to a rendered number. -/
def padTwo (l : List Char) : List Char :=
  if l.length ≥ 2 then l else if l.length = 1 then '0' :: l else ['0', '0']

/-- A number rendered and zero-padded to (at least) two characters. -/
def pad2 (n : Nat) : List Char := padTwo (natToStr n)

/-! ### Calendar model (local calendar fields of a JS `Date`) -/

/-- Local calendar fields of a `Date`: `getFullYear`, `getMonth() + 1`
(1-based month) and `getDate` (day of month). -/
structure Civil where
  year : Int
  month : Nat
  day : Nat
deriving DecidableEq

/-- Gregorian leap-year test. -/
def isLeap (y : Int) : Bool :=
  ((y % 4 == 0) && !(y % 100 == 0)) || (y % 400 == 0)

/-- Days in a (1-based) month of a year. -/
def daysInMonth (y : Int) (m : Nat) : Nat :=
  if m = 2 then (if isLeap y then 29 else 28)
  else if m = 4 || m = 6 || m = 9 || m = 11 then 30
  else 31

/-- The next calendar day. -/
def nextDay (c : Civil) : Civil :=
  if c.day < daysInMonth c.year c.month then ⟨c.year, c.month, c.day + 1⟩
  else if c.month < 12 then ⟨c.year, c.month + 1, 1⟩
  else ⟨c.year + 1, 1, 1⟩

/-- The previous calendar day. -/
def prevDay (c : Civil) : Civil :=
  if 1 < c.day then ⟨c.year, c.month, c.day - 1⟩
  else if 1 < c.month then ⟨c.year, c.month - 1, daysInMonth c.year (c.month - 1)⟩
  else ⟨c.year - 1, 12, 31⟩

/-- Add `k` calendar days. -/
def addDaysC : Civil → Nat → Civil
  | c, 0 => c
  | c, k + 1 => addDaysC (nextDay c) k

/-- Subtract `k` calendar days. -/
def subDaysC : Civil → Nat → Civil
  | c, 0 => c
  | c, k + 1 => subDaysC (prevDay c) k

/-- Add a signed number of calendar days. -/
def addDaysSigned (c : Civil) (k : Int) : Civil :=
  if 0 ≤ k then addDaysC c k.toNat else subDaysC c (-k).toNat

/-- Lexicographic order on calendar dates. -/
def civilLE (a b : Civil) : Bool :=
  a.year < b.year ||
    (a.year == b.year &&
      (a.month < b.month || (a.month == b.month && a.day ≤ b.day)))

/-- Earliest date representable by a JS `Date` time value. -/
def jsMinDate : Civil := ⟨-271821, 4, 20⟩

/-- Latest date representable by a JS `Date` time value. -/
def jsMaxDate : Civil := ⟨275760, 9, 13⟩

/-- The calendar normalization of `new Date(year, month, day)` with a
0-based `month`: the two-digit-year rule (`0 ≤ year ≤ 99` reads as
`1900 + year`), month normalization into the year (floor-division by 12),
then day-of-month normalization by day-stepping from the first of the
month. -/
def jsDateCore (y m d : Int) : Civil :=
  addDaysSigned ⟨(if 0 ≤ y && y ≤ 99 then 1900 + y else y) + m / 12, (m % 12).toNat + 1, 1⟩
    (d - 1)

/-- Model of `new Date(year, month, day)` (0-based `month`): normalize via
`jsDateCore`; `none` models an invalid date (`isNaN(d.getTime())`), which
happens exactly when the time value leaves the representable range. -/
def mkJsDate (y m d : Int) : Option Civil :=
  if civilLE jsMinDate (jsDateCore y m d) && civilLE (jsDateCore y m d) jsMaxDate then
    some (jsDateCore y m d)
  else none

/-- Day number of a calendar date (days since 1970-01-01, Gregorian),
the standard civil-from-days correspondence used by `Date` time values. -/
def toDayNum (c : Civil) : Int :=
  let y : Int := if c.month ≤ 2 then c.year - 1 else c.year
  let era : Int := y / 400
  let yoe : Int := y - era * 400
  let mp : Int := if c.month > 2 then (c.month : Int) - 3 else (c.month : Int) + 9
  let doy : Int := (153 * mp + 2) / 5 + (c.day : Int) - 1
  let doe : Int := yoe * 365 + yoe / 4 - yoe / 100 + doy
  era * 146097 + doe - 719468

/-- The `Date` value (ms) of a calendar date at local midnight. -/
def dateVal (c : Civil) : Int := toDayNum c * msPerDay

example : toDayNum ⟨1970, 1, 1⟩ = 0 := by decide
example : toDayNum ⟨2024, 1, 20⟩ - toDayNum ⟨2024, 1, 6⟩ = 14 := by decide
example : toDayNum ⟨2024, 1, 16⟩ = toDayNum ⟨2024, 1, 15⟩ + 1 := by decide
example : toDayNum ⟨2024, 3, 1⟩ = toDayNum ⟨2024, 2, 29⟩ + 1 := by decide

/-! ### Timestamp codec -/

/-- Embedding of `createTimestamp` (src/lib/utils.ts): the local calendar
fields rendered as `${year}` (unpadded) followed by two-digit padded month,
day, hour, minute and second. -/
def createTimestamp (c : Civil) (hour : Nat) (minute : Nat := 0) (second : Nat := 0) :
    List Char :=
  intToStr c.year ++
    (pad2 c.month ++ (pad2 c.day ++ (pad2 hour ++ (pad2 minute ++ pad2 second))))

/-- The record returned by `parseTimestamp`: the constructed `Date` plus the
hour/minute/second fields (each `none` models the string `"NaN"` rendered
from a `NaN` `parseInt` result). -/
structure TsRec where
  date : Civil
  hour : Option Int
  minute : Option Int
  second : Option Int
deriving DecidableEq

/-- The `Date` built from the three date slices of a 14-character timestamp,
`new Date(year, month - 1, day)`; `none` when a slice parses to `NaN` or the
date is invalid. -/
def jsDateFromSlices (l : List Char) : Option Civil :=
  match jsParseInt (l.take 4), (jsParseInt ((l.drop 4).take 2)).map (· - 1),
      jsParseInt ((l.drop 6).take 2) with
  | some y, some mo, some d => mkJsDate y mo d
  | _, _, _ => none

/-- Embedding of `parseTimestamp` (src/app/page.tsx): `null` unless the
input has length 14 and the date slices build a valid `Date`; the
hour/minute/second slices are parsed but never validated. -/
def parseTimestamp (l : List Char) : Option TsRec :=
  if l.length = 14 then
    match jsDateFromSlices l with
    | some c =>
        some ⟨c, jsParseInt ((l.drop 8).take 2), jsParseInt ((l.drop 10).take 2),
          jsParseInt ((l.drop 12).take 2)⟩
    | none => none
  else none

example : parseTimestamp (createTimestamp ⟨2024, 1, 15⟩ 14 30 45)
    = some ⟨⟨2024, 1, 15⟩, some 14, some 30, some 45⟩ := by decide
example : parseTimestamp ("20240115140000".data)
    = some ⟨⟨2024, 1, 15⟩, some 14, some 0, some 0⟩ := by decide
example : parseTimestamp ("garbage".data) = none := by decide
example : createTimestamp ⟨999, 1, 15⟩ 12 0 0 = "9990115120000".data := by decide

/-! ### Access-window policy -/

/-- Window length in days by tier (src/config/archive.ts `archiveConfigs`):
14 for the default tier, 90 for the dj tier; the page selects the dj config
exactly when `isAuthenticated`. -/
def cfgDays (isAuth : Bool) : Int := if isAuth then 90 else 14

/-- The single range check used throughout the source (the calendar
`disabled` predicate, `handleHourChange`, `changeHour`, `handleAudioEnded`
and the signed-url route): `getDateRange` yields `today = now` and
`startDate = now - days` (calendar-day subtraction, same time of day), and a
value is rejected iff `v > today || v < startDate`.  `rangeOk` is the
negation: admitted iff inside, inclusive at both ends. -/
def rangeOk (v now days : Int) : Bool := !(v > now || v < now - days * msPerDay)

/-- The instant of a broadcast hour: midnight of calendar day number `k`
plus `h` hours; this is the `Date(year, month, day, hour)` the signed-url
route reconstructs from a media key. -/
def hourVal (k h : Int) : Int := k * msPerDay + h * msPerHour

/-! ### Hour/day navigator and end-of-track handler (src/components/audio-player.tsx) -/

/-- The rollover arithmetic of `changeHour`: `newHour = hour + delta`, with
`< 0` wrapping to 23 on the previous calendar day and `> 23` wrapping to 0
on the next calendar day.  `d` is the full `Date` value of the current
selection (calendar-day steps keep its time of day). -/
def stepRaw (d h delta : Int) : Int × Int :=
  if h + delta < 0 then (d - msPerDay, 23)
  else if h + delta > 23 then (d + msPerDay, 0)
  else (d, h + delta)

/-- Embedding of `changeHour`: compute the rollover step, then call
`onHourChange` (result `some`) only if the stepped *date value* passes the
range check against `new Date()` and `today - config.dateRange.days`;
otherwise return with no state change (`none`). -/
def changeHourM (d h delta now days : Int) : Option (Int × Int) :=
  if rangeOk (stepRaw d h delta).1 now days then some (stepRaw d h delta) else none

/-- Outcome of `handleAudioEnded`: whether `setIsPlaying(false)` was issued,
the final value of `isTransitioning`, and the `onHourChange` payload (if
invoked). -/
structure EndedOut where
  stoppedPlayback : Bool
  transitioning : Bool
  callback : Option (Int × Int)
deriving DecidableEq

/-- The +1-hour advance computed by `handleAudioEnded` (only the `> 23`
rollover applies there). -/
def endedStep (d h : Int) : Int × Int :=
  if h + 1 > 23 then (d + msPerDay, 0) else (d, h + 1)

/-- Embedding of `handleAudioEnded`: `setIsTransitioning(true)`, advance one
hour, then either stop playback entirely (out of range:
`setIsPlaying(false)`, `setIsTransitioning(false)`, no callback) or hand
the new pair to `onHourChange` with `isTransitioning` still set. -/
def endedM (d h now days : Int) : EndedOut :=
  if rangeOk (endedStep d h).1 now days then ⟨false, true, some (endedStep d h)⟩
  else ⟨true, false, none⟩

/-! ### Share dialog (share-dialog.tsx) -/

/-- Embedding of the `ShareDialog` url effect: the timestamp placed in the
`t` query parameter, with minute/second taken from the playback position
(`Math.floor(currentTime / 60)`, `Math.floor(currentTime % 60)`) only when
"include current playback position" is checked, else zero. -/
def shareTimestamp (c : Civil) (hour : Nat) (currentTime : Nat) (includeTime : Bool) :
    List Char :=
  createTimestamp c hour
    (if includeTime then currentTime / 60 else 0)
    (if includeTime then currentTime % 60 else 0)

/-- The full share URL `<origin><path>?t=<timestamp>`. -/
def shareUrl (base : List Char) (c : Civil) (hour currentTime : Nat)
    (includeTime : Bool) : List Char :=
  base ++ "?t=".data ++ shareTimestamp c hour currentTime includeTime

/-! ### Deep-link session controller (src/app/page.tsx `ArchivePageContent`)

The controller is modelled as a transition system over an environment fixed
for the lifetime of a trace: the clock `now` (every `new Date()` in the
source), the authentication flag, and the inbound `t` query parameter
(`none` = absent; the empty string is falsy in JS, like `null`).  Router
query-string updates (`router.push`) are not modelled; they only feed back
into the same `t`-dependent effects. -/

/-- Banner classification of the deep-link effect (`invalidLinkReason`). -/
inductive LinkReason where
  | login
  | outOfRange
deriving DecidableEq

/-- Fixed per-trace environment of the page. -/
structure Env where
  now : Int
  isAuth : Bool
  tsParam : Option (List Char)

/-- Whether the `t` query parameter is truthy (`!!timestamp`). -/
def tsPresent (e : Env) : Bool :=
  match e.tsParam with
  | some t => !t.isEmpty
  | none => false

/-- `initialState`: `timestamp ? parseTimestamp(timestamp) : null`. -/
def initialParse (e : Env) : Option TsRec :=
  match e.tsParam with
  | some t => if t.isEmpty then none else parseTimestamp t
  | none => none

/-- The default selection: `yesterday` = today shifted one calendar day back
with `setHours(12, 0, 0, 0)`. -/
def yesterdayNoon (now : Int) : Int := (now / msPerDay - 1) * msPerDay + 12 * msPerHour

/-- The banner effect (`invalidLinkReason`, with `userDismissed = false`):
nothing for an absent or unparsable timestamp; for a parsed date outside the
current tier's range, `login` when an unauthenticated caller's date would
fit the dj window, else `out_of_range`. -/
def bannerOf (e : Env) : Option LinkReason :=
  match initialParse e with
  | none => none
  | some r =>
    let v := dateVal r.date
    if v > e.now || v < e.now - cfgDays e.isAuth * msPerDay then
      if !e.isAuth && decide (v ≥ e.now - 90 * msPerDay) && decide (v ≤ e.now) then
        some LinkReason.login
      else some LinkReason.outOfRange
    else none

/-- Page state: the selection (`selectedDate` as a full `Date` value,
`selectedHour`/`selectedMinute`/`selectedSecond` with `none` modelling the
string `"NaN"`), the resolved media url as the `(day, hour)` key it was
signed for, the playing/selected flags, the banner, and the log of
`getArchiveUrl` invocations as `(day, hour)` pairs. -/
structure CtrlState where
  selectedDate : Int
  selectedHour : Option Int
  selectedMinute : Option Int
  selectedSecond : Option Int
  audioUrl : Option (Int × Int)
  isPlaying : Bool
  archiveSelected : Bool
  banner : Option LinkReason
  invocations : List (Int × Int)
deriving DecidableEq

/-- Initial page state: selection from the parsed timestamp when available
(`initialState?.date || yesterday`, `initialState?.hour || "12"`, minute and
second defaulting to `"0"`), `archiveSelected = !!timestamp`, nothing
resolved, nothing playing. -/
def initCtrl (e : Env) : CtrlState :=
  match initialParse e with
  | some r =>
    { selectedDate := dateVal r.date
      selectedHour := r.hour
      selectedMinute := r.minute
      selectedSecond := r.second
      audioUrl := none
      isPlaying := false
      archiveSelected := tsPresent e
      banner := bannerOf e
      invocations := [] }
  | none =>
    { selectedDate := yesterdayNoon e.now
      selectedHour := some 12
      selectedMinute := some 0
      selectedSecond := some 0
      audioUrl := none
      isPlaying := false
      archiveSelected := tsPresent e
      banner := bannerOf e
      invocations := [] }

/-- The media key `getArchiveUrl` builds: the calendar day of
`selectedDate` (its local Y/M/D fields) together with the hour. -/
def mediaKey (s : CtrlState) (h : Int) : Int × Int := (s.selectedDate / msPerDay, h)

/-- The signed-url route's decision (src/app/api/signed-url/route.ts): the
file's `Date(year, month, day, hour)` must pass the range check for the
caller's tier. -/
def serverAllows (e : Env) (k h : Int) : Bool := rangeOk (hourVal k h) e.now (cfgDays e.isAuth)

/-- Effect of a successful `updateAudioUrl` run: the url is set to the
signed key and, when a `t` parameter is present, playback starts
(`setIsPlaying(true)`). -/
def applyResolveOk (e : Env) (s : CtrlState) (h : Int) : CtrlState :=
  { s with
    audioUrl := some (mediaKey s h)
    isPlaying := if tsPresent e then true else s.isPlaying
    invocations := mediaKey s h :: s.invocations }

/-- Effect of a failed `updateAudioUrl` run (server denial or network
failure): `setAudioUrl(null)`; the player reacts to a null url by clearing
playback state. -/
def applyResolveFail (s : CtrlState) (h : Int) : CtrlState :=
  { s with
    audioUrl := none
    isPlaying := false
    invocations := mediaKey s h :: s.invocations }

/-- Effect of the player's skip buttons: `changeHour` followed by the
page's `handleHourChange` (the latter's range re-check is the same
predicate `changeHour` already applied, so a single guard decides). -/
def applyStepHour (e : Env) (s : CtrlState) (h delta : Int) : CtrlState :=
  match changeHourM s.selectedDate h delta e.now (cfgDays e.isAuth) with
  | some p => { s with selectedDate := p.1, selectedHour := some p.2 }
  | none => s

/-- Effect of the `ended` media event: `handleAudioEnded`, stopping
playback at the range edge and otherwise moving the selection forward. -/
def applyEnded (e : Env) (s : CtrlState) (h : Int) : CtrlState :=
  match (endedM s.selectedDate h e.now (cfgDays e.isAuth)).callback with
  | some p => { s with selectedDate := p.1, selectedHour := some p.2 }
  | none => { s with isPlaying := false }

/-- One controller transition.  Resolution runs only when
`archiveSelected` holds (the `updateAudioUrl` effect guard) and succeeds
only when the signed-url route admits the key; failure covers both a
server denial and a transport error.  Date picks come from the calendar
widget, whose `disabled` predicate is the range check on the (midnight)
date value; hour picks come from the 0–23 selector; skip clicks require
`archiveSelected` (the buttons are disabled otherwise). -/
inductive Step (e : Env) : CtrlState → CtrlState → Prop where
  | resolveOk (s : CtrlState) (h : Int) (harch : s.archiveSelected = true)
      (hh : s.selectedHour = some h)
      (hsrv : serverAllows e (mediaKey s h).1 (mediaKey s h).2 = true) :
      Step e s (applyResolveOk e s h)
  | resolveFail (s : CtrlState) (h : Int) (harch : s.archiveSelected = true)
      (hh : s.selectedHour = some h) :
      Step e s (applyResolveFail s h)
  | pressPlay (s : CtrlState) :
      Step e s { s with archiveSelected := true, isPlaying := true }
  | pickDate (s : CtrlState) (k : Int)
      (hk : rangeOk (k * msPerDay) e.now (cfgDays e.isAuth) = true) :
      Step e s { s with selectedDate := k * msPerDay }
  | pickHour (s : CtrlState) (h : Int) (h0 : 0 ≤ h) (h23 : h ≤ 23) :
      Step e s { s with selectedHour := some h }
  | stepHour (s : CtrlState) (h delta : Int) (harch : s.archiveSelected = true)
      (hh : s.selectedHour = some h) (hδ : delta = 1 ∨ delta = -1) :
      Step e s (applyStepHour e s h delta)
  | audioEnded (s : CtrlState) (h : Int) (hh : s.selectedHour = some h) :
      Step e s (applyEnded e s h)

/-- Reachable controller states: the initial state and everything one
transition away from a reachable state. -/
inductive Reach (e : Env) : CtrlState → Prop where
  | init : Reach e (initCtrl e)
  | step {s s' : CtrlState} : Reach e s → Step e s s' → Reach e s'

/-! ### Auth context (src/lib/auth.tsx)

`isDJRole` and `DJ_ROLES` are imported from the external package
`@wxyc/shared/auth-client`, which is not part of this repository's sources.
Modelled from the spec: the DJ-level roles are exactly `dj`, `musicDirector`
and `stationManager` (the spec's `DJ ≤ MusicDirector ≤ StationManager`
tiers; the repository's test doubles pin the same list). -/

/-- Modelled from the spec: the `DJ_ROLES` list of the external auth client
(the roles ranked DJ or above). -/
def DJ_ROLES : List String := ["dj", "musicDirector", "stationManager"]

/-- Modelled from the spec: `isDJRole(role)` — membership in `DJ_ROLES`;
`null`/`undefined` roles are not DJ-level. -/
def isDJRole (r : Option String) : Bool :=
  match r with
  | some s => DJ_ROLES.contains s
  | none => false

/-- The auth provider's user record (the `role` field may be absent). -/
structure AuthUser where
  role : Option String
deriving DecidableEq

/-- Auth provider state: the current session user, if any. -/
structure AuthState where
  user : Option AuthUser
deriving DecidableEq

/-- `userRole = user?.role ?? null`. -/
def userRole (st : AuthState) : Option String := st.user.bind (fun u => u.role)

/-- `isAuthenticated = isDJRole(userRole)`. -/
def isAuthenticated (st : AuthState) : Bool := isDJRole (userRole st)

/-- Result of `login`. -/
inductive LoginResult where
  | success
  | failure (error : String)
deriving DecidableEq

/-- Embedding of `AuthProvider.login`: a sign-in error fails immediately;
otherwise the fetched session's user is stored (`setUser`) and, when the
user's role is not DJ-level, the call still returns a failure result. -/
def login (signInError : Option String) (sessionUser : Option AuthUser)
    (st : AuthState) : LoginResult × AuthState :=
  match signInError with
  | some e => (LoginResult.failure e, st)
  | none =>
    match sessionUser with
    | some u =>
      let st' : AuthState := { user := some u }
      if !isDJRole u.role then
        (LoginResult.failure "Your account does not have archive access", st')
      else (LoginResult.success, st')
    | none => (LoginResult.failure "Login failed", st)

/-! ### Concrete scenarios used by witnesses and counterexamples -/

/-- A session loaded with no deep link, unauthenticated, at local midnight
of Jan 20 2024. -/
def demoEnv : Env := ⟨dateVal ⟨2024, 1, 20⟩, false, none⟩

/-- The no-deep-link session after the user presses "Listen Now". -/
def demoPlay : CtrlState := { initCtrl demoEnv with archiveSelected := true, isPlaying := true }

/-- The same session after the default selection (yesterday at noon)
resolves successfully. -/
def demoResolved : CtrlState := applyResolveOk demoEnv demoPlay 12

/-- A session loaded from the deep link `?t=19000101120000` (a well-formed
timestamp for Jan 1 1900, far outside every access window). -/
def deepEnv : Env := ⟨dateVal ⟨2024, 1, 20⟩, false, some "19000101120000".data⟩

/-- A session loaded from the malformed deep link `?t=garbage`. -/
def badEnv : Env := ⟨dateVal ⟨2024, 1, 20⟩, false, some "garbage".data⟩

/-- The no-deep-link environment with the same clock as `badEnv`. -/
def noLinkEnv : Env := ⟨dateVal ⟨2024, 1, 20⟩, false, none⟩

end Archive

namespace Archive

/-! ### Codec lemmas -/

theorem isDigit_dchar (n : Nat) (h : n < 10) : isDigit (dchar n) = true := by
  interval_cases n <;> decide

theorem dval_dchar (n : Nat) (h : n < 10) : dval (dchar n) = n := by
  interval_cases n <;> decide

theorem natToStrAux_fuel (f1 : Nat) : ∀ f2 n : Nat, n < f1 → n < f2 →
    natToStrAux f1 n = natToStrAux f2 n := by
  induction f1 with
  | zero => intro f2 n h1 _; omega
  | succ f ih =>
    intro f2 n h1 h2
    cases f2 with
    | zero => omega
    | succ g =>
      simp only [natToStrAux]
      by_cases hn : n < 10
      · simp [hn]
      · simp only [hn, if_false]
        rw [ih g (n / 10) (by omega) (by omega)]

theorem natToStr_eq (n : Nat) :
    natToStr n = if n < 10 then [dchar n] else natToStr (n / 10) ++ [dchar (n % 10)] := by
  unfold natToStr
  by_cases hn : n < 10
  · simp [natToStrAux, hn]
  · simp only [natToStrAux, hn, if_false]
    rw [natToStrAux_fuel n (n / 10 + 1) (n / 10) (by omega) (by omega)]
    rfl

theorem natToStr_digits (n : Nat) : ∀ c ∈ natToStr n, isDigit c = true := by
  induction n using Nat.strong_induction_on with
  | _ n ih =>
    rw [natToStr_eq]
    by_cases hn : n < 10
    · simp only [hn, if_true, List.mem_singleton]
      intro c hc
      subst hc
      exact isDigit_dchar n hn
    · simp only [hn, if_false]
      intro c hc
      rw [List.mem_append] at hc
      rcases hc with hc | hc
      · exact ih (n / 10) (by omega) c hc
      · rw [List.mem_singleton] at hc
        subst hc
        exact isDigit_dchar _ (Nat.mod_lt _ (by omega))

theorem natOfDec_append_singleton (l : List Char) (c : Char) :
    natOfDec (l ++ [c]) = natOfDec l * 10 + dval c := by
  simp [natOfDec, List.foldl_append]

theorem natOfDec_natToStr (n : Nat) : natOfDec (natToStr n) = n := by
  induction n using Nat.strong_induction_on with
  | _ n ih =>
    rw [natToStr_eq]
    by_cases hn : n < 10
    · simp only [hn, if_true]
      simp [natOfDec, dval_dchar n hn]
    · simp only [hn, if_false]
      rw [natOfDec_append_singleton, ih (n / 10) (by omega),
        dval_dchar _ (Nat.mod_lt _ (by omega))]
      omega

theorem natToStr_ne_nil (n : Nat) : natToStr n ≠ [] := by
  rw [natToStr_eq]
  by_cases hn : n < 10 <;> simp [hn]

theorem natToStr_len1 (n : Nat) (h : n < 10) : (natToStr n).length = 1 := by
  rw [natToStr_eq]; simp [h]

theorem natToStr_len2 (n : Nat) (h1 : 10 ≤ n) (h2 : n ≤ 99) : (natToStr n).length = 2 := by
  rw [natToStr_eq]
  simp only [show ¬ n < 10 by omega, if_false, List.length_append, List.length_singleton]
  rw [natToStr_len1 (n / 10) (by omega)]

theorem natToStr_len3 (n : Nat) (h1 : 100 ≤ n) (h2 : n ≤ 999) : (natToStr n).length = 3 := by
  rw [natToStr_eq]
  simp only [show ¬ n < 10 by omega, if_false, List.length_append, List.length_singleton]
  rw [natToStr_len2 (n / 10) (by omega) (by omega)]

theorem natToStr_len4 (n : Nat) (h1 : 1000 ≤ n) (h2 : n ≤ 9999) : (natToStr n).length = 4 := by
  rw [natToStr_eq]
  simp only [show ¬ n < 10 by omega, if_false, List.length_append, List.length_singleton]
  rw [natToStr_len3 (n / 10) (by omega) (by omega)]

theorem pad2_small (n : Nat) (h : n < 10) : pad2 n = ['0', dchar n] := by
  unfold pad2 padTwo
  rw [natToStr_eq]
  simp [h]

theorem pad2_large (n : Nat) (h1 : 10 ≤ n) (h2 : n ≤ 99) : pad2 n = natToStr n := by
  unfold pad2 padTwo
  rw [natToStr_len2 n h1 h2]
  simp

theorem pad2_len (n : Nat) (h : n ≤ 99) : (pad2 n).length = 2 := by
  by_cases hn : n < 10
  · rw [pad2_small n hn]; rfl
  · rw [pad2_large n (by omega) h]; exact natToStr_len2 n (by omega) h

theorem pad2_digits (n : Nat) (h : n ≤ 99) : ∀ c ∈ pad2 n, isDigit c = true := by
  by_cases hn : n < 10
  · rw [pad2_small n hn]
    intro c hc
    simp only [List.mem_cons, List.not_mem_nil, or_false] at hc
    rcases hc with rfl | rfl
    · decide
    · exact isDigit_dchar n hn
  · rw [pad2_large n (by omega) h]
    exact natToStr_digits n

theorem natOfDec_pad2 (n : Nat) (h : n ≤ 99) : natOfDec (pad2 n) = n := by
  by_cases hn : n < 10
  · rw [pad2_small n hn]
    have h0 : dval '0' = 0 := by decide
    simp [natOfDec, h0, dval_dchar n hn]
  · rw [pad2_large n (by omega) h]
    exact natOfDec_natToStr n

theorem isDigit_toNat (c : Char) (h : isDigit c = true) : 48 ≤ c.toNat ∧ c.toNat ≤ 57 := by
  unfold isDigit at h
  simp only [Bool.and_eq_true, decide_eq_true_eq] at h
  exact h

theorem digit_not_ws (c : Char) (h : isDigit c = true) : isJsWs c = false := by
  have hb := isDigit_toNat c h
  unfold isJsWs jsWsCodes
  simp only [List.contains_cons, List.contains_nil, Bool.or_false,
    Bool.or_eq_false_iff, beq_eq_false_iff_ne, ne_eq]
  omega

theorem digit_ne (c : Char) (h : isDigit c = true) (a : Char) (ha : isDigit a = false) :
    c ≠ a := by
  intro he
  subst he
  rw [ha] at h
  exact Bool.false_ne_true h

theorem jsParseInt_digits (l : List Char) (hne : l ≠ [])
    (hd : ∀ c ∈ l, isDigit c = true) : jsParseInt l = some ((natOfDec l : Nat) : Int) := by
  obtain ⟨c, t, rfl⟩ := List.exists_cons_of_ne_nil hne
  have hc : isDigit c = true := hd c (by simp)
  have hws : isJsWs c = false := digit_not_ws c hc
  have hcm : c ≠ '-' := digit_ne c hc '-' (by decide)
  have hcp : c ≠ '+' := digit_ne c hc '+' (by decide)
  have hx1 : ¬ t.head? = some 'x' := by
    cases t with
    | nil => simp
    | cons c2 t2 =>
      simp only [List.head?_cons, Option.some.injEq]
      exact digit_ne c2 (hd c2 (by simp)) 'x' (by decide)
  have hx2 : ¬ t.head? = some 'X' := by
    cases t with
    | nil => simp
    | cons c2 t2 =>
      simp only [List.head?_cons, Option.some.injEq]
      exact digit_ne c2 (hd c2 (by simp)) 'X' (by decide)
  have htw : (c :: t).takeWhile isDigit = c :: t := List.takeWhile_eq_self_iff.mpr hd
  have hdw : (c :: t).dropWhile isJsWs = c :: t := by
    rw [List.dropWhile_cons]
    simp [hws]
  have hat : jsAfterSign (c :: t) = c :: t := by
    unfold jsAfterSign
    rw [if_neg]
    simp only [List.head?_cons, Option.some.injEq, hcm, hcp]
    simp
  have hhex : jsIsHexPrefixed (c :: t) = false := by
    unfold jsIsHexPrefixed
    simp only [List.head?_cons, List.tail_cons, hx1, hx2]
    simp
  have hsgn : jsSign (c :: t) = 1 := by
    unfold jsSign
    rw [if_neg]
    simp only [List.head?_cons, Option.some.injEq]
    exact hcm
  unfold jsParseInt
  rw [hdw, hat, hhex]
  simp only [Bool.false_eq_true, if_false, htw]
  rw [if_neg (by simp), hsgn, one_mul]

theorem jsParseInt_natToStr (n : Nat) : jsParseInt (natToStr n) = some ((n : Nat) : Int) := by
  rw [jsParseInt_digits (natToStr n) (natToStr_ne_nil n) (natToStr_digits n),
    natOfDec_natToStr n]

theorem jsParseInt_pad2 (n : Nat) (h : n ≤ 99) : jsParseInt (pad2 n) = some ((n : Nat) : Int) := by
  have hne : pad2 n ≠ [] := by
    intro he
    have := pad2_len n h
    rw [he] at this
    simp at this
  rw [jsParseInt_digits (pad2 n) hne (pad2_digits n h), natOfDec_pad2 n h]

theorem dval_le (c : Char) (h : isDigit c = true) : dval c ≤ 9 := by
  have := isDigit_toNat c h
  unfold dval
  omega

theorem hval_le (c : Char) (h : isHexDigit c = true) : hval c ≤ 15 := by
  unfold isHexDigit at h
  simp only [Bool.or_eq_true, Bool.and_eq_true, decide_eq_true_eq] at h
  unfold hval
  rcases h with (hd | hr) | hr
  · rw [if_pos hd]
    exact Nat.le_trans (dval_le c hd) (by omega)
  · have : isDigit c = false := by
      unfold isDigit
      simp only [Bool.and_eq_true, decide_eq_true_eq, Bool.and_eq_false_iff,
        decide_eq_false_iff_not]
      omega
    rw [this]
    simp only [Bool.false_eq_true, if_false, if_pos (by omega : 97 ≤ c.toNat)]
    omega
  · have h1 : isDigit c = false := by
      unfold isDigit
      simp only [Bool.and_eq_false_iff, decide_eq_false_iff_not]
      omega
    rw [h1]
    simp only [Bool.false_eq_true, if_false]
    rw [if_neg (by omega : ¬ 97 ≤ c.toNat)]
    omega

theorem foldlDec_lt (l : List Char) : ∀ a : Nat, (∀ c ∈ l, isDigit c = true) →
    List.foldl (fun a c => a * 10 + dval c) a l < (a + 1) * 10 ^ l.length := by
  induction l with
  | nil => intro a _; simp
  | cons c t ih =>
    intro a hd
    have hc : dval c ≤ 9 := dval_le c (hd c (by simp))
    have ht := ih (a * 10 + dval c) (fun x hx => hd x (by simp [hx]))
    calc List.foldl (fun a c => a * 10 + dval c) (a * 10 + dval c) t
        < (a * 10 + dval c + 1) * 10 ^ t.length := ht
      _ ≤ ((a + 1) * 10) * 10 ^ t.length := by
          apply Nat.mul_le_mul_right
          omega
      _ = (a + 1) * 10 ^ (t.length + 1) := by ring
      _ = (a + 1) * 10 ^ (c :: t).length := by rw [List.length_cons]

theorem natOfDec_lt (l : List Char) (hd : ∀ c ∈ l, isDigit c = true) :
    natOfDec l < 10 ^ l.length := by
  have := foldlDec_lt l 0 hd
  simpa [natOfDec] using this

theorem foldlHex_lt (l : List Char) : ∀ a : Nat, (∀ c ∈ l, isHexDigit c = true) →
    List.foldl (fun a c => a * 16 + hval c) a l < (a + 1) * 16 ^ l.length := by
  induction l with
  | nil => intro a _; simp
  | cons c t ih =>
    intro a hd
    have hc : hval c ≤ 15 := hval_le c (hd c (by simp))
    have ht := ih (a * 16 + hval c) (fun x hx => hd x (by simp [hx]))
    calc List.foldl (fun a c => a * 16 + hval c) (a * 16 + hval c) t
        < (a * 16 + hval c + 1) * 16 ^ t.length := ht
      _ ≤ ((a + 1) * 16) * 16 ^ t.length := by
          apply Nat.mul_le_mul_right
          omega
      _ = (a + 1) * 16 ^ (t.length + 1) := by ring
      _ = (a + 1) * 16 ^ (c :: t).length := by rw [List.length_cons]

theorem natOfHex_lt (l : List Char) (hd : ∀ c ∈ l, isHexDigit c = true) :
    natOfHex l < 16 ^ l.length := by
  have := foldlHex_lt l 0 hd
  simpa [natOfHex] using this

theorem natAbs_sign_mul (l1 : List Char) (n : Nat) :
    (jsSign l1 * (n : Int)).natAbs = n := by
  rw [Int.natAbs_mul]
  unfold jsSign
  split <;> simp

theorem jsParseInt_bound (l : List Char) (hl : l.length ≤ 4) (v : Int)
    (hv : jsParseInt l = some v) : v.natAbs < 10000 := by
  have h1 : (l.dropWhile isJsWs).length ≤ 4 :=
    le_trans (List.Sublist.length_le (List.dropWhile_sublist isJsWs)) hl
  have h2 : (jsAfterSign (l.dropWhile isJsWs)).length ≤ 4 := by
    unfold jsAfterSign
    split
    · rw [List.length_tail]
      omega
    · exact h1
  unfold jsParseInt at hv
  split at hv
  · split at hv
    · exact absurd hv (by simp)
    · have hv2 := Option.some.inj hv
      rw [← hv2, natAbs_sign_mul]
      have hlen :
          (((jsAfterSign (l.dropWhile isJsWs)).drop 2).takeWhile isHexDigit).length ≤ 2 := by
        have hs := List.Sublist.length_le
          (List.takeWhile_sublist (l := (jsAfterSign (l.dropWhile isJsWs)).drop 2) isHexDigit)
        rw [List.length_drop] at hs
        omega
      have hb := natOfHex_lt (((jsAfterSign (l.dropWhile isJsWs)).drop 2).takeWhile isHexDigit)
        (fun c hc => List.mem_takeWhile_imp hc)
      have hp := Nat.pow_le_pow_right (by omega : 1 ≤ 16) hlen
      have h16 : (16 : Nat) ^ 2 = 256 := by norm_num
      omega
  · split at hv
    · exact absurd hv (by simp)
    · have hv2 := Option.some.inj hv
      rw [← hv2, natAbs_sign_mul]
      have hlen : ((jsAfterSign (l.dropWhile isJsWs)).takeWhile isDigit).length ≤ 4 := by
        have hs := List.Sublist.length_le
          (List.takeWhile_sublist (l := jsAfterSign (l.dropWhile isJsWs)) isDigit)
        omega
      have hb := natOfDec_lt ((jsAfterSign (l.dropWhile isJsWs)).takeWhile isDigit)
        (fun c hc => List.mem_takeWhile_imp hc)
      have hp := Nat.pow_le_pow_right (by omega : 1 ≤ 10) hlen
      have h10 : (10 : Nat) ^ 4 = 10000 := by norm_num
      omega

/-! ### Calendar lemmas -/

theorem nextDay_year (c : Civil) : c.year ≤ (nextDay c).year ∧ (nextDay c).year ≤ c.year + 1 := by
  unfold nextDay
  split_ifs <;> simp

theorem prevDay_year (c : Civil) : c.year - 1 ≤ (prevDay c).year ∧ (prevDay c).year ≤ c.year := by
  unfold prevDay
  split_ifs <;> simp

theorem addDaysC_year (k : Nat) : ∀ c : Civil,
    c.year ≤ (addDaysC c k).year ∧ (addDaysC c k).year ≤ c.year + k := by
  induction k with
  | zero => intro c; simp [addDaysC]
  | succ j ih =>
    intro c
    have h1 := nextDay_year c
    have h2 := ih (nextDay c)
    unfold addDaysC
    constructor
    · omega
    · omega

theorem subDaysC_year (k : Nat) : ∀ c : Civil,
    c.year - k ≤ (subDaysC c k).year ∧ (subDaysC c k).year ≤ c.year := by
  induction k with
  | zero => intro c; simp [subDaysC]
  | succ j ih =>
    intro c
    have h1 := prevDay_year c
    have h2 := ih (prevDay c)
    unfold subDaysC
    constructor
    · omega
    · omega

theorem addDaysC_within (k : Nat) : ∀ (y : Int) (m j : Nat), 1 ≤ j →
    j + k ≤ daysInMonth y m → addDaysC ⟨y, m, j⟩ k = ⟨y, m, j + k⟩ := by
  induction k with
  | zero => intro y m j _ _; simp [addDaysC]
  | succ i ih =>
    intro y m j hj hk
    unfold addDaysC
    have hn : nextDay ⟨y, m, j⟩ = ⟨y, m, j + 1⟩ := by
      show (if j < daysInMonth y m then (⟨y, m, j + 1⟩ : Civil)
        else if m < 12 then ⟨y, m + 1, 1⟩ else ⟨y + 1, 1, 1⟩) = ⟨y, m, j + 1⟩
      rw [if_pos (by omega)]
    rw [hn, ih y m (j + 1) (by omega) (by omega)]
    congr 1
    omega

theorem civilLE_year_lt (a b : Civil) (h : a.year < b.year) : civilLE a b = true := by
  unfold civilLE
  simp [h]

theorem jsDateCore_year_bound (y m d : Int) (hy : y.natAbs ≤ 100000) (hm : m.natAbs ≤ 100000)
    (hd : d.natAbs ≤ 100000) :
    (jsDateCore y m d).year.natAbs ≤ 250000 := by
  unfold jsDateCore addDaysSigned
  have hyy : ((if 0 ≤ y && y ≤ 99 then 1900 + y else y) + m / 12).natAbs ≤ 108335 := by
    split_ifs with h
    · simp only [Bool.and_eq_true, decide_eq_true_eq] at h
      omega
    · omega
  split
  · have h2 := addDaysC_year (d - 1).toNat
      ⟨(if 0 ≤ y && y ≤ 99 then 1900 + y else y) + m / 12, (m % 12).toNat + 1, 1⟩
    simp only at h2
    omega
  · have h2 := subDaysC_year (-(d - 1)).toNat
      ⟨(if 0 ≤ y && y ≤ 99 then 1900 + y else y) + m / 12, (m % 12).toNat + 1, 1⟩
    simp only at h2
    omega

theorem mkJsDate_isSome (y m d : Int) (hy : y.natAbs ≤ 100000) (hm : m.natAbs ≤ 100000)
    (hd : d.natAbs ≤ 100000) : mkJsDate y m d = some (jsDateCore y m d) := by
  have hb := jsDateCore_year_bound y m d hy hm hd
  unfold mkJsDate
  rw [if_pos]
  rw [Bool.and_eq_true]
  constructor
  · exact civilLE_year_lt jsMinDate (jsDateCore y m d) (by unfold jsMinDate; simp; omega)
  · exact civilLE_year_lt (jsDateCore y m d) jsMaxDate (by unfold jsMaxDate; simp; omega)

theorem daysInMonth_le (y : Int) (m : Nat) : daysInMonth y m ≤ 31 := by
  unfold daysInMonth
  split_ifs <;> omega

theorem drop_two_at (l : List Char) (n m : Nat) (h : m = 2 + n) :
    l.drop m = (l.drop n).drop 2 := by
  rw [List.drop_drop, h, Nat.add_comm]

theorem jsDateCore_roundtrip (y : Int) (mo d : Nat) (hy : 1000 ≤ y) (hy2 : y ≤ 9999)
    (hmo1 : 1 ≤ mo) (hmo2 : mo ≤ 12) (hd1 : 1 ≤ d) (hd2 : d ≤ daysInMonth y mo) :
    jsDateCore y ((mo : Int) - 1) (d : Int) = ⟨y, mo, d⟩ := by
  unfold jsDateCore addDaysSigned
  have e0 : ((0 ≤ y && y ≤ 99) : Bool) = false := by
    simp only [Bool.and_eq_false_iff, decide_eq_false_iff_not]
    omega
  have e1 : ((mo : Int) - 1) / 12 = 0 := by omega
  have e2 : ((((mo : Int) - 1) % 12)).toNat + 1 = mo := by omega
  rw [e0, e1, e2]
  simp only [Bool.false_eq_true, if_false, add_zero]
  rw [if_pos (by omega : (0 : Int) ≤ (d : Int) - 1)]
  have e3 : ((d : Int) - 1).toNat = d - 1 := by omega
  rw [e3, addDaysC_within (d - 1) y mo 1 (by omega) (by omega)]
  congr 1
  omega


/-! ## Claims -/

/-- C4: for every current (date, hour) and delta = ±1, the navigator's
rollover arithmetic is `newHour = hour + delta`, wrapping `< 0` to 23 on
the previous calendar day and `> 23` to 0 on the next calendar day — the
stepped pair always denotes the broadcast hour exactly `delta` hours away
(same time-of-day on the date value, hour index shifted by `delta`); in
particular step(+1) from (Jan 15 2024, 23) is (Jan 16 2024, 0) and
step(−1) from (Jan 15 2024, 0) is (Jan 14 2024, 23). -/
theorem navigator_rollover (d h delta : Int) (h0 : 0 ≤ h) (h23 : h ≤ 23)
    (hδ : delta = 1 ∨ delta = -1) :
    (h + delta < 0 → stepRaw d h delta = (d - msPerDay, 23)) ∧
    (h + delta > 23 → stepRaw d h delta = (d + msPerDay, 0)) ∧
    (0 ≤ h + delta → h + delta ≤ 23 → stepRaw d h delta = (d, h + delta)) ∧
    ((stepRaw d h delta).1 / msPerDay) * 24 + (stepRaw d h delta).2
      = (d / msPerDay) * 24 + h + delta ∧
    (stepRaw d h delta).1 % msPerDay = d % msPerDay ∧
    stepRaw (dateVal ⟨2024, 1, 15⟩) 23 1 = (dateVal ⟨2024, 1, 16⟩, 0) ∧
    stepRaw (dateVal ⟨2024, 1, 15⟩) 0 (-1) = (dateVal ⟨2024, 1, 14⟩, 23) := by
  refine ⟨?_, ?_, ?_, ?_, ?_, by decide, by decide⟩ <;>
    (try intro hlt) <;> (try intro hle) <;>
    unfold stepRaw msPerDay <;> rcases hδ with rfl | rfl <;> split_ifs <;>
    first
    | rfl
    | omega

/-- Witness for C4 at (Jan 15 2024, hour 23), delta = +1. -/
theorem navigator_rollover_witness :
    ((23 : Int) + 1 < 0 → stepRaw (dateVal ⟨2024, 1, 15⟩) 23 1 = (dateVal ⟨2024, 1, 15⟩ - msPerDay, 23)) ∧
    ((23 : Int) + 1 > 23 → stepRaw (dateVal ⟨2024, 1, 15⟩) 23 1 = (dateVal ⟨2024, 1, 15⟩ + msPerDay, 0)) ∧
    ((0 : Int) ≤ 23 + 1 → (23 : Int) + 1 ≤ 23 → stepRaw (dateVal ⟨2024, 1, 15⟩) 23 1 = (dateVal ⟨2024, 1, 15⟩, 23 + 1)) ∧
    ((stepRaw (dateVal ⟨2024, 1, 15⟩) 23 1).1 / msPerDay) * 24 + (stepRaw (dateVal ⟨2024, 1, 15⟩) 23 1).2
      = (dateVal ⟨2024, 1, 15⟩ / msPerDay) * 24 + 23 + 1 ∧
    (stepRaw (dateVal ⟨2024, 1, 15⟩) 23 1).1 % msPerDay = dateVal ⟨2024, 1, 15⟩ % msPerDay ∧
    stepRaw (dateVal ⟨2024, 1, 15⟩) 23 1 = (dateVal ⟨2024, 1, 16⟩, 0) ∧
    stepRaw (dateVal ⟨2024, 1, 15⟩) 0 (-1) = (dateVal ⟨2024, 1, 14⟩, 23) :=
  navigator_rollover (dateVal ⟨2024, 1, 15⟩) 23 1 (by decide) (by decide) (Or.inl rfl)

/-- C5 counterexample: with now = Jan 20 2024 13:30 and the 14-day window,
stepping +1 from (Jan 20, hour 13) targets (Jan 20, hour 14), whose implied
instant 14:00 lies *outside* the access window (it is in the future), yet
`changeHour` mutates the selection (the guard only checks the date value,
never the hour). -/
theorem navigator_guard_ignores_hour :
    changeHourM (dateVal ⟨2024, 1, 20⟩) 13 1
        (dateVal ⟨2024, 1, 20⟩ + 13 * msPerHour + 1800000) 14
      = some (dateVal ⟨2024, 1, 20⟩, 14) ∧
    rangeOk (hourVal (toDayNum ⟨2024, 1, 20⟩) 14)
        (dateVal ⟨2024, 1, 20⟩ + 13 * msPerHour + 1800000) 14 = false := by
  decide

/-- C5 (amended): the navigator's range guard is evaluated on the stepped
*date value* (the selection's `Date` with only the calendar day adjusted),
not on the instant implied by (newDate, newHour): whenever that date value
falls outside the window the step is silently rejected with no state change
— in particular stepping −1 from hour 0 on the earliest admissible day is a
no-op — but a step whose date value stays in range is accepted even when
the target hour's instant is outside the window. -/
theorem navigator_boundary_noop (d h delta now days : Int)
    (hout : rangeOk (stepRaw d h delta).1 now days = false) :
    changeHourM d h delta now days = none := by
  unfold changeHourM
  simp [hout]

/-- Witness for C5: with now = Jan 20 2024 00:00 and the 14-day window,
Jan 6 2024 is the earliest admissible day (inclusive boundary), and
stepping −1 from (Jan 6, hour 0) is rejected with no state change. -/
theorem navigator_boundary_noop_witness :
    rangeOk (dateVal ⟨2024, 1, 6⟩) (dateVal ⟨2024, 1, 20⟩) 14 = true ∧
    changeHourM (dateVal ⟨2024, 1, 6⟩) 0 (-1) (dateVal ⟨2024, 1, 20⟩) 14 = none :=
  ⟨by decide,
    navigator_boundary_noop (dateVal ⟨2024, 1, 6⟩) 0 (-1) (dateVal ⟨2024, 1, 20⟩) 14 (by decide)⟩

/-- C6 counterexample: with now = Jan 20 2024 13:30 and the 14-day window,
(Jan 20, hour 13) is the most recent admissible hour of the window (hour 14
is inadmissible), yet `handleAudioEnded` does not halt: it requests the
inadmissible (Jan 20, hour 14) via the hour-change callback and leaves
`isTransitioning` set. -/
theorem ended_requests_future_hour :
    rangeOk (hourVal (toDayNum ⟨2024, 1, 20⟩) 13)
        (dateVal ⟨2024, 1, 20⟩ + 13 * msPerHour + 1800000) 14 = true ∧
    rangeOk (hourVal (toDayNum ⟨2024, 1, 20⟩) 14)
        (dateVal ⟨2024, 1, 20⟩ + 13 * msPerHour + 1800000) 14 = false ∧
    endedM (dateVal ⟨2024, 1, 20⟩) 13
        (dateVal ⟨2024, 1, 20⟩ + 13 * msPerHour + 1800000) 14
      = ⟨false, true, some (dateVal ⟨2024, 1, 20⟩, 14)⟩ := by
  decide

/-- C6 (amended): `handleAudioEnded` advances exactly as `changeHour(+1)`
does (it halts only when the stepped *date value* fails the range check,
not at every hour the window excludes); when that +1 step is rejected the
handler halts playback completely — `setIsPlaying(false)`,
`isTransitioning` cleared, hour-change callback not invoked.  In
particular ended at hour 23 of the last admissible day stops playback. -/
theorem ended_stop_at_edge (d h now days : Int) (h0 : 0 ≤ h) :
    (endedM d h now days).callback = changeHourM d h 1 now days ∧
    (changeHourM d h 1 now days = none →
      endedM d h now days = ⟨true, false, none⟩) := by
  have hp : endedStep d h = stepRaw d h 1 := by
    unfold endedStep stepRaw
    split_ifs <;> first | rfl | omega
  constructor
  · unfold endedM changeHourM
    rw [hp]
    split_ifs <;> rfl
  · intro hnone
    unfold changeHourM at hnone
    unfold endedM
    rw [hp]
    by_cases hr : rangeOk (stepRaw d h 1).1 now days = true
    · rw [hr] at hnone
      simp at hnone
    · simp only [Bool.not_eq_true] at hr
      rw [hr]
      rfl

/-- Witness for C6: ended at (Jan 20 2024, hour 23) with now = Jan 20 2024
13:30, 14-day window: the +1 step is rejected (date value Jan 21 exceeds
now), and the handler stops playback and clears the transition flag. -/
theorem ended_stop_at_edge_witness :
    (endedM (dateVal ⟨2024, 1, 20⟩) 23
        (dateVal ⟨2024, 1, 20⟩ + 13 * msPerHour + 1800000) 14).callback
      = changeHourM (dateVal ⟨2024, 1, 20⟩) 23 1
          (dateVal ⟨2024, 1, 20⟩ + 13 * msPerHour + 1800000) 14 ∧
    (changeHourM (dateVal ⟨2024, 1, 20⟩) 23 1
        (dateVal ⟨2024, 1, 20⟩ + 13 * msPerHour + 1800000) 14 = none →
      endedM (dateVal ⟨2024, 1, 20⟩) 23
          (dateVal ⟨2024, 1, 20⟩ + 13 * msPerHour + 1800000) 14
        = ⟨true, false, none⟩) :=
  ended_stop_at_edge (dateVal ⟨2024, 1, 20⟩) 23
    (dateVal ⟨2024, 1, 20⟩ + 13 * msPerHour + 1800000) 14 (by decide)

/-- C7: window membership is inclusive at both ends — the range check
admits `v` exactly when `now − days ≤ v ≤ now`; with now = Jan 20 2024
00:00 and the 14-day window, every broadcast hour of Jan 6 2024 is inside
(the boundary day, inclusive) and every broadcast hour of Jan 5 2024 is
outside. -/
theorem window_inclusive :
    (∀ v now days : Int, rangeOk v now days = true ↔ now - days * msPerDay ≤ v ∧ v ≤ now) ∧
    (∀ h : Fin 24,
      rangeOk (hourVal (toDayNum ⟨2024, 1, 6⟩) h.val) (dateVal ⟨2024, 1, 20⟩) 14 = true ∧
      rangeOk (hourVal (toDayNum ⟨2024, 1, 5⟩) h.val) (dateVal ⟨2024, 1, 20⟩) 14 = false) := by
  constructor
  · intro v now days
    unfold rangeOk
    simp only [Bool.not_eq_eq_eq_not, Bool.not_true, Bool.or_eq_false_iff,
      decide_eq_false_iff_not, not_lt]
    omega
  · decide

/-- C8: for the selection (Jan 15 2024, hour 14) at playback position
1845 s (30 min 45 s), the share URL carries `t=20240115140000` when
position-include is off and `t=20240115143045` when it is on. -/
theorem share_url_position :
    shareUrl "https://archive.example.com/".data ⟨2024, 1, 15⟩ 14 1845 false
      = "https://archive.example.com/?t=20240115140000".data ∧
    shareUrl "https://archive.example.com/".data ⟨2024, 1, 15⟩ 14 1845 true
      = "https://archive.example.com/?t=20240115143045".data := by
  decide

/-- C10: `isAuthenticated` is true exactly when the session user's role is
a DJ-level role (`dj`, `musicDirector` or `stationManager`); completing
login with the lower `member` role stores the user but returns a failure
result, and the resulting session is not authenticated. -/
theorem auth_dj_gate :
    (∀ st : AuthState, isAuthenticated st = true ↔
      userRole st = some "dj" ∨ userRole st = some "musicDirector" ∨
        userRole st = some "stationManager") ∧
    (∀ st : AuthState,
      (login none (some ⟨some "member"⟩) st).1
          = LoginResult.failure "Your account does not have archive access" ∧
      isAuthenticated (login none (some ⟨some "member"⟩) st).2 = false) := by
  constructor
  · intro st
    cases hu : userRole st with
    | none => simp [isAuthenticated, isDJRole, hu]
    | some s =>
      simp only [isAuthenticated, isDJRole, hu, DJ_ROLES, List.contains_cons,
        List.contains_nil, Bool.or_false, Bool.or_eq_true, beq_iff_eq,
        Option.some.injEq]
  · intro st
    constructor <;> rfl

/-- C1 counterexample: loading the deep link `?t=19000101120000`
(unauthenticated, now = Jan 20 2024) reaches a state in which the resolver
(`getArchiveUrl` / the signed-url request) *was* invoked with the selection
Jan 1 1900 hour 12, which lies outside the current tier's access window —
contradicting "the Resolver is never invoked with a selection outside the
current tier's window". -/
theorem resolver_invoked_out_of_window :
    Reach deepEnv (applyResolveFail (initCtrl deepEnv) 12) ∧
    (applyResolveFail (initCtrl deepEnv) 12).invocations = [(toDayNum ⟨1900, 1, 1⟩, 12)] ∧
    serverAllows deepEnv (toDayNum ⟨1900, 1, 1⟩) 12 = false :=
  ⟨Reach.step Reach.init (Step.resolveFail _ 12 (by decide) (by decide)),
    by decide, by decide⟩

/-- C1 (amended): whenever the media URL is non-null, the selection the URL
was resolved for lies within the current tier's access window — the
server-side range check in the resolver is the enforcement point, so a
successful resolution (the only way `audioUrl` becomes non-null) implies
window membership.  The resolver itself, however, can be invoked with an
out-of-window selection (e.g. one initialized from a deep-link timestamp),
in which case resolution fails and the URL stays null; and the *current*
selection may meanwhile step to a not-yet-admissible hour of an in-window
day. -/
theorem url_within_window (e : Env) (s : CtrlState) (hr : Reach e s) :
    ∀ k h : Int, s.audioUrl = some (k, h) →
      e.now - cfgDays e.isAuth * msPerDay ≤ hourVal k h ∧ hourVal k h ≤ e.now := by
  induction hr with
  | init =>
    intro k h hu
    cases hp : initialParse e <;> simp [initCtrl, hp] at hu
  | step hprev hstep ih =>
    intro k h hu
    cases hstep with
    | resolveOk h₁ harch hh hsrv =>
      injection hu with hu2
      rw [Prod.ext_iff] at hu2
      obtain ⟨h1, h2⟩ := hu2
      subst h1
      subst h2
      unfold serverAllows rangeOk at hsrv
      simp only [Bool.not_eq_eq_eq_not, Bool.not_true, Bool.or_eq_false_iff,
        decide_eq_false_iff_not, not_lt] at hsrv
      exact ⟨hsrv.2, hsrv.1⟩
    | resolveFail h₁ harch hh => exact Option.noConfusion hu
    | pressPlay => exact ih k h hu
    | pickDate k₁ hk => exact ih k h hu
    | pickHour h₁ h0 h23 => exact ih k h hu
    | stepHour h₁ delta harch hh hδ =>
      unfold applyStepHour at hu
      split at hu
      · exact ih k h hu
      · exact ih k h hu
    | audioEnded h₁ hh =>
      unfold applyEnded at hu
      split at hu
      · exact ih k h hu
      · exact ih k h hu

/-- Witness for C1 (amended): in the no-deep-link session, after pressing
play and successfully resolving the default selection (Jan 19 2024 at
noon; key day Jan 19, hour 12), the resolved hour is within the 14-day
window. -/
theorem url_within_window_witness :
    demoEnv.now - cfgDays demoEnv.isAuth * msPerDay ≤ hourVal (toDayNum ⟨2024, 1, 19⟩) 12 ∧
    hourVal (toDayNum ⟨2024, 1, 19⟩) 12 ≤ demoEnv.now :=
  url_within_window demoEnv demoResolved
    (Reach.step (Reach.step Reach.init (Step.pressPlay _))
      (Step.resolveOk _ 12 (by decide) (by decide) (by decide)))
    (toDayNum ⟨2024, 1, 19⟩) 12 (by decide)

/-- C2 counterexample: the malformed non-empty deep link `?t=garbage`
yields `archiveSelected = true` in the initial state, while the no-link
case yields `archiveSelected = false` — the two are *not* identical
(`archiveSelected = !!timestamp` never consults the parse result). -/
theorem malformed_link_not_default :
    (initCtrl badEnv).archiveSelected = true ∧
    (initCtrl noLinkEnv).archiveSelected = false := by
  decide

/-- C2 (amended): for an absent, empty or malformed `t` parameter the
initial selection is the default — yesterday at 12:00:00, nothing
resolved, nothing playing, no banner (no error surfaced) — but
`archiveSelected` equals the truthiness of the raw parameter, so a
malformed *non-empty* link (unlike an absent one) starts with
`archiveSelected = true`, causing the default selection to resolve and
auto-play. -/
theorem malformed_link_defaults (e : Env) (hm : initialParse e = none) :
    (initCtrl e).selectedDate = yesterdayNoon e.now ∧
    (initCtrl e).selectedHour = some 12 ∧
    (initCtrl e).selectedMinute = some 0 ∧
    (initCtrl e).selectedSecond = some 0 ∧
    (initCtrl e).audioUrl = none ∧
    (initCtrl e).isPlaying = false ∧
    (initCtrl e).banner = none ∧
    (initCtrl e).archiveSelected = tsPresent e := by
  unfold initCtrl bannerOf
  rw [hm]
  exact ⟨rfl, rfl, rfl, rfl, rfl, rfl, rfl, rfl⟩

/-- Witness for C2 (amended) at the malformed link `?t=garbage`. -/
theorem malformed_link_defaults_witness :
    (initCtrl badEnv).selectedDate = yesterdayNoon badEnv.now ∧
    (initCtrl badEnv).selectedHour = some 12 ∧
    (initCtrl badEnv).selectedMinute = some 0 ∧
    (initCtrl badEnv).selectedSecond = some 0 ∧
    (initCtrl badEnv).audioUrl = none ∧
    (initCtrl badEnv).isPlaying = false ∧
    (initCtrl badEnv).banner = none ∧
    (initCtrl badEnv).archiveSelected = tsPresent badEnv :=
  malformed_link_defaults badEnv (by decide)


/-- C3 counterexample: the valid calendar input (year 999, Jan 15, 12:00:00)
encodes to a 13-character string — `createTimestamp` renders the year as
`${year}` with no zero-padding — which the decoder rejects (length ≠ 14),
so `parseTimestamp (createTimestamp d h m s)` is `null` rather than the
original fields: the round-trip law fails on this valid input. -/
theorem codec_roundtrip_fails_year999 :
    parseTimestamp (createTimestamp ⟨999, 1, 15⟩ 12 0 0) = none ∧
    (createTimestamp ⟨999, 1, 15⟩ 12 0 0).length = 13 := by
  decide

/-- C3 (amended): for every valid input whose year lies in 1000..9999 (the
encoder does not zero-pad the year, so years outside this range produce a
string of length ≠ 14, which the decoder rejects), decoding the encoded
timestamp reproduces the calendar date and the hour, minute and second
exactly. -/
theorem codec_roundtrip (y : Int) (mo d h mi s : Nat)
    (hy : 1000 ≤ y) (hy2 : y ≤ 9999) (hmo1 : 1 ≤ mo) (hmo2 : mo ≤ 12)
    (hd1 : 1 ≤ d) (hd2 : d ≤ daysInMonth y mo) (hh : h ≤ 23) (hmi : mi ≤ 59) (hs : s ≤ 59) :
    parseTimestamp (createTimestamp ⟨y, mo, d⟩ h mi s)
      = some ⟨⟨y, mo, d⟩, some (h : Int), some (mi : Int), some (s : Int)⟩ := by
  have hd99 : d ≤ 99 := le_trans hd2 (le_trans (daysInMonth_le y mo) (by omega))
  have hY : intToStr y = natToStr y.toNat := by
    unfold intToStr
    rw [if_neg (by omega)]
  have hYlen : (natToStr y.toNat).length = 4 := natToStr_len4 _ (by omega) (by omega)
  have hE : createTimestamp ⟨y, mo, d⟩ h mi s
      = natToStr y.toNat ++ (pad2 mo ++ (pad2 d ++ (pad2 h ++ (pad2 mi ++ pad2 s)))) := by
    unfold createTimestamp
    rw [hY]
  have hlen : (createTimestamp ⟨y, mo, d⟩ h mi s).length = 14 := by
    rw [hE]
    simp only [List.length_append, hYlen, pad2_len mo (by omega), pad2_len d hd99,
      pad2_len h (by omega), pad2_len mi (by omega), pad2_len s (by omega)]
  have ht4 : (createTimestamp ⟨y, mo, d⟩ h mi s).take 4 = natToStr y.toNat := by
    rw [hE]
    exact List.take_left' hYlen
  have hd4 : (createTimestamp ⟨y, mo, d⟩ h mi s).drop 4
      = pad2 mo ++ (pad2 d ++ (pad2 h ++ (pad2 mi ++ pad2 s))) := by
    rw [hE]
    exact List.drop_left' hYlen
  have hd6 : (createTimestamp ⟨y, mo, d⟩ h mi s).drop 6
      = pad2 d ++ (pad2 h ++ (pad2 mi ++ pad2 s)) := by
    rw [drop_two_at _ 4 6 rfl, hd4]
    exact List.drop_left' (pad2_len mo (by omega))
  have hd8 : (createTimestamp ⟨y, mo, d⟩ h mi s).drop 8
      = pad2 h ++ (pad2 mi ++ pad2 s) := by
    rw [drop_two_at _ 6 8 rfl, hd6]
    exact List.drop_left' (pad2_len d hd99)
  have hd10 : (createTimestamp ⟨y, mo, d⟩ h mi s).drop 10 = pad2 mi ++ pad2 s := by
    rw [drop_two_at _ 8 10 rfl, hd8]
    exact List.drop_left' (pad2_len h (by omega))
  have hd12 : (createTimestamp ⟨y, mo, d⟩ h mi s).drop 12 = pad2 s := by
    rw [drop_two_at _ 10 12 rfl, hd10]
    exact List.drop_left' (pad2_len mi (by omega))
  have ht2mo : ((createTimestamp ⟨y, mo, d⟩ h mi s).drop 4).take 2 = pad2 mo := by
    rw [hd4]
    exact List.take_left' (pad2_len mo (by omega))
  have ht2d : ((createTimestamp ⟨y, mo, d⟩ h mi s).drop 6).take 2 = pad2 d := by
    rw [hd6]
    exact List.take_left' (pad2_len d hd99)
  have ht2h : ((createTimestamp ⟨y, mo, d⟩ h mi s).drop 8).take 2 = pad2 h := by
    rw [hd8]
    exact List.take_left' (pad2_len h (by omega))
  have ht2mi : ((createTimestamp ⟨y, mo, d⟩ h mi s).drop 10).take 2 = pad2 mi := by
    rw [hd10]
    exact List.take_left' (pad2_len mi (by omega))
  have ht2s : ((createTimestamp ⟨y, mo, d⟩ h mi s).drop 12).take 2 = pad2 s := by
    rw [hd12]
    rw [List.take_of_length_le]
    rw [pad2_len s (by omega)]
  have hyv : ((y.toNat : Nat) : Int) = y := by omega
  have hjdf : jsDateFromSlices (createTimestamp ⟨y, mo, d⟩ h mi s) = some ⟨y, mo, d⟩ := by
    unfold jsDateFromSlices
    rw [ht4, ht2mo, ht2d, jsParseInt_natToStr, jsParseInt_pad2 mo (by omega),
      jsParseInt_pad2 d hd99, hyv]
    simp only [Option.map_some']
    rw [mkJsDate_isSome y ((mo : Int) - 1) (d : Int) (by omega) (by omega) (by omega),
      jsDateCore_roundtrip y mo d hy hy2 hmo1 hmo2 hd1 hd2]
  unfold parseTimestamp
  rw [if_pos hlen, hjdf, ht2h, ht2mi, ht2s, jsParseInt_pad2 h (by omega),
    jsParseInt_pad2 mi (by omega), jsParseInt_pad2 s (by omega)]

/-- Witness for C3 (amended) at (Jan 15 2024, 14:30:45). -/
theorem codec_roundtrip_witness :
    parseTimestamp (createTimestamp ⟨2024, 1, 15⟩ 14 30 45)
      = some ⟨⟨2024, 1, 15⟩, some ((14 : Nat) : Int), some ((30 : Nat) : Int),
          some ((45 : Nat) : Int)⟩ :=
  codec_roundtrip 2024 1 15 14 30 45 (by omega) (by omega) (by omega) (by omega)
    (by omega) (by decide) (by omega) (by omega) (by omega)

/-- C9: `parseTimestamp` never throws (it is a total function into an
option) and returns `null` exactly when the input length is not 14 or the
date slices fail to build a valid `Date`; moreover, for a 14-character
input the constructed `Date` is invalid exactly when one of the three date
slices parses to `NaN` — the `isNaN` range check can never fire for fields
of at most four characters, and the hour/minute/second slices never cause
a `null` result. -/
theorem decoder_null_conditions (l : List Char) :
    (parseTimestamp l = none ↔ (l.length ≠ 14 ∨ jsDateFromSlices l = none)) ∧
    (l.length = 14 →
      (jsDateFromSlices l = none ↔
        (jsParseInt (l.take 4) = none ∨ jsParseInt ((l.drop 4).take 2) = none ∨
          jsParseInt ((l.drop 6).take 2) = none))) := by
  constructor
  · unfold parseTimestamp
    by_cases hl : l.length = 14
    · rw [if_pos hl]
      cases hj : jsDateFromSlices l <;> simp [hj, hl]
    · rw [if_neg hl]
      simp [hl]
  · intro hl
    constructor
    · intro hnone
      by_contra hc
      push_neg at hc
      obtain ⟨h1, h2, h3⟩ := hc
      obtain ⟨v1, hv1⟩ := Option.ne_none_iff_exists'.mp h1
      obtain ⟨v2, hv2⟩ := Option.ne_none_iff_exists'.mp h2
      obtain ⟨v3, hv3⟩ := Option.ne_none_iff_exists'.mp h3
      have hb1 : v1.natAbs < 10000 :=
        jsParseInt_bound (l.take 4) (by rw [List.length_take]; omega) v1 hv1
      have hb2 : v2.natAbs < 10000 :=
        jsParseInt_bound ((l.drop 4).take 2) (by rw [List.length_take]; omega) v2 hv2
      have hb3 : v3.natAbs < 10000 :=
        jsParseInt_bound ((l.drop 6).take 2) (by rw [List.length_take]; omega) v3 hv3
      unfold jsDateFromSlices at hnone
      rw [hv1, hv2, hv3] at hnone
      simp only [Option.map_some'] at hnone
      rw [mkJsDate_isSome v1 (v2 - 1) v3 (by omega) (by omega) (by omega)] at hnone
      exact Option.noConfusion hnone
    · intro hc
      unfold jsDateFromSlices
      rcases hc with h1 | h2 | h3
      · rw [h1]
      · rw [h2]
        simp only [Option.map_none']
        cases jsParseInt (l.take 4) <;> rfl
      · rw [h3]
        cases jsParseInt (l.take 4) <;> cases (jsParseInt ((l.drop 4).take 2)).map (· - 1) <;> rfl

/-- Witness for C9 at the 14-character input `20240115aabbcc`: the date
slices form a valid date so the decoder returns a record even though the
hour/minute/second slices are `NaN`. -/
theorem decoder_null_conditions_witness :
    ((parseTimestamp "20240115aabbcc".data = none ↔
        ("20240115aabbcc".data.length ≠ 14 ∨ jsDateFromSlices "20240115aabbcc".data = none)) ∧
      ("20240115aabbcc".data.length = 14 →
        (jsDateFromSlices "20240115aabbcc".data = none ↔
          (jsParseInt ("20240115aabbcc".data.take 4) = none ∨
            jsParseInt (("20240115aabbcc".data.drop 4).take 2) = none ∨
            jsParseInt (("20240115aabbcc".data.drop 6).take 2) = none)))) ∧
    parseTimestamp "20240115aabbcc".data = some ⟨⟨2024, 1, 15⟩, none, none, none⟩ :=
  ⟨decoder_null_conditions ("20240115aabbcc".data), by decide⟩

end Archive
